import Mathlib

/-!
Shallow embedding of the podpulse backend (src/backend/app/repository.py,
src/backend/app/main.py, src/backend/schedule.py, src/backend/app/models.py).

The relational store is modelled as lists of rows; SQL reads/writes become
pure functions on a `Store` value.  Network effects are parameters: `feeds`
maps a feed location to its parsed entries (feedparser.parse), `netOk` tells
whether streaming a media URL to disk succeeds.  Python's
`datetime(y, m, d).timestamp()` interprets the naive datetime in the local
timezone, so the day-truncation carries an explicit UTC offset `tz` (seconds
east of UTC).  Exceptions that escape a function are modelled with `Except`.
-/

/-- Whitespace as matched by the sanitizer (the ASCII subset of Python re \s,
which is what feed titles exercise). -/
def isPySpace (c : Char) : Bool :=
  c == ' ' || c == '\t' || c == '\n' || c == '\r' || c == '\x0b' || c == '\x0c'

/-- Characters kept by safe_filename: the class [A-Za-z0-9.\-_] of
schedule.py line 37. -/
def isSafeChar (c : Char) : Bool :=
  c.isAlpha || c.isDigit || c == '.' || c == '-' || c == '_'

/-- Python str.strip() on the modelled whitespace set (schedule.py line 36
applies .strip() before the substitution). -/
def pyStrip (l : List Char) : List Char :=
  ((l.dropWhile isPySpace).reverse.dropWhile isPySpace).reverse

/-- State machine for re.sub of one-or-more whitespace by a hyphen: the flag
records whether the scan is inside a whitespace run. -/
def subWsAux : Bool → List Char → List Char
  | _, [] => []
  | prev, c :: cs =>
    if isPySpace c then
      if prev then subWsAux true cs else '-' :: subWsAux true cs
    else c :: subWsAux false cs

/-- schedule.safe_filename: strip, collapse each whitespace run to one hyphen,
drop characters outside the safe class, truncate to 240 characters. -/
def safe_filename (s : String) : String :=
  String.mk (((subWsAux false (pyStrip s.data)).filter isSafeChar).take 240)

/-- Replacement of each maximal whitespace run by a single hyphen, transcribed
directly from the claim wording (the run is consumed with dropWhile). -/
def collapseRuns : List Char → List Char
  | [] => []
  | c :: cs =>
    if isPySpace c then '-' :: collapseRuns (cs.dropWhile isPySpace)
    else c :: collapseRuns cs
termination_by l => l.length
decreasing_by
  · have h : (cs.dropWhile isPySpace).length ≤ cs.length := by
      induction cs with
      | nil => simp [List.dropWhile]
      | cons d ds ih =>
        simp only [List.dropWhile]
        split
        · exact Nat.le_succ_of_le ih
        · exact Nat.le_refl _
    simp only [List.length_cons]
    omega
  · simp only [List.length_cons]
    omega

/-- The sanitizer exactly as claim C7 words it, with no leading strip. -/
def claimSanitize (s : String) : String :=
  String.mk (((collapseRuns s.data).filter isSafeChar).take 240)

/-- The amended sanitizer: strip leading/trailing whitespace first, then the
claim pipeline. -/
def specSanitize (s : String) : String :=
  String.mk (((collapseRuns (pyStrip s.data)).filter isSafeChar).take 240)

/-- Name component after the last slash, with trailing slashes dropped
(pathlib's Path(...).name for the URL-shaped strings the code feeds it). -/
def pathName (l : List Char) : List Char :=
  ((l.reverse.dropWhile (fun c => c == '/')).takeWhile (fun c => c != '/')).reverse

/-- Pathlib suffix of a name: the part from the last dot when that dot is
strictly inside the name, else empty. -/
def pySuffixChars (l : List Char) : List Char :=
  let name := pathName l
  if name.contains '.' then
    let after := (name.reverse.takeWhile (fun c => c != '.')).reverse
    if after.length == 0 || name.length ≤ after.length + 1 then []
    else '.' :: after
  else []

/-- Extension derivation of schedule.run line 117:
Path(media_url.split("?")[0]).suffix or ".mp3". -/
def pyExt (url : String) : String :=
  let base := url.data.takeWhile (fun c => c != '?')
  let suf := pySuffixChars base
  if suf.isEmpty then ".mp3" else String.mk suf

/-- Python f-string rendering of a nullable integer column (None prints as
the text None). -/
def pyShowOptInt : Option Int → String
  | some n => toString n
  | none => "None"

/-- Title used for the destination name: it.title or f-string track-id
fallback; the empty string is falsy in Python. -/
def titleOrTrack (title : String) (track_id : Option Int) : String :=
  if title = "" then "track-" ++ pyShowOptInt track_id else title

/-- Destination file name of schedule.run lines 116-119:
pod<podcast_id>-trk<track_id>-<sanitized_title><ext>. -/
def destFname (podcast_id : Nat) (track_id : Option Int) (title : String)
    (url : String) : String :=
  "pod" ++ toString podcast_id ++ "-trk" ++ pyShowOptInt track_id ++ "-" ++
    safe_filename (titleOrTrack title track_id) ++ pyExt url

/-- Python x or y on optional strings: None and the empty string are falsy. -/
def pyOrStr (a b : Option String) : Option String :=
  match a with
  | some s => if s = "" then b else some s
  | none => b

/-- Python str.startswith. -/
def strStartsWith (s p : String) : Bool :=
  s.data.take p.data.length == p.data

/-- Rows of the podcasts table (models.Podcast); rows in the table carry an
assigned primary key. -/
structure Podcast where
  id : Nat
  title : String
  artist : Option String
  genre : Option String
  rss_url : Option String
  image_url : Option String
  itunes_id : Option Int
  date : Int
  suspended : Option Nat
deriving DecidableEq

/-- Rows of the podcasts_items table (models.PodcastItem); id is None until
the insert assigns it.  The publish_date column is declared Optional[str]
(models.py line 29), so despite every writer binding a float the SQLite
column has TEXT affinity and stores the float's text rendering. -/
structure PodcastItem where
  id : Option Nat
  podcast_id : Nat
  track_id : Option Int
  guid : Option String
  title : String
  desc : Option String
  keywords : Option String
  author : Option String
  media_url : Option String
  image_url : Option String
  publish_date : Option String
  filename : Option String
  downloaded : Option Nat
  watched : Option Nat
deriving DecidableEq

/-- Rows of the favorites_episodes table (models.FavoriteEpisode). -/
structure FavoriteEpisode where
  id : Option Nat
  track_id : Int
  added_at : Int
  note : Option String
deriving DecidableEq

/-- The relational store: the three tables plus the next fresh episode
primary key. -/
structure Store where
  podcasts : List Podcast
  items : List PodcastItem
  favorites : List FavoriteEpisode
  nextItemId : Nat
deriving DecidableEq

/-- SQL equality on nullable integer columns: a NULL operand compares false. -/
def sqlEqOptInt : Option Int → Option Int → Bool
  | some a, some b => a == b
  | _, _ => false

/-- Repository.get_podcast: primary-key lookup in the podcasts table. -/
def get_podcast (st : Store) (podcast_id : Nat) : Option Podcast :=
  st.podcasts.find? (fun p => p.id == podcast_id)

/-- Repository.get_item: primary-key lookup in the items table. -/
def get_item (st : Store) (item_id : Nat) : Option PodcastItem :=
  st.items.find? (fun it => it.id == some item_id)

/-- Row predicate of the dedup lookup: podcast_id == ? AND track_id == ?. -/
def matchesKey (podcast_id : Nat) (track_id : Option Int) (it : PodcastItem) : Bool :=
  it.podcast_id == podcast_id && sqlEqOptInt it.track_id track_id

/-- Repository.add_podcast_item_if_not_exists: return the first existing row
with the same (podcast_id, track_id), else insert the item with a fresh id. -/
def add_podcast_item_if_not_exists (st : Store) (item : PodcastItem) :
    Store × PodcastItem :=
  match st.items.find? (matchesKey item.podcast_id item.track_id) with
  | some existing => (st, existing)
  | none =>
    let newItem := { item with id := some st.nextItemId }
    ({ st with items := st.items ++ [newItem], nextItemId := st.nextItemId + 1 },
      newItem)

/-- Track ids of the episodes owned by a podcast that are not NULL (used by
the favorites tier of the cascading delete). -/
def deletedTrackIds (st : Store) (podcast_id : Nat) : List Int :=
  (st.items.filter (fun it => it.podcast_id == podcast_id)).filterMap
    (fun it => it.track_id)

/-- Repository.delete_podcast_and_related: delete the podcast's items, then
favorites whose track_id is among those items' track ids, then the podcast
row; all inside one session committed once. -/
def delete_podcast_and_related (st : Store) (podcast_id : Nat) : Store × Bool :=
  let items := st.items.filter (fun it => it.podcast_id == podcast_id)
  let track_ids := items.filterMap (fun it => it.track_id)
  let restItems := st.items.filter (fun it => !(it.podcast_id == podcast_id))
  let restFavs :=
    if track_ids.isEmpty then st.favorites
    else st.favorites.filter (fun f => !(track_ids.contains f.track_id))
  let podcastFound := (get_podcast st podcast_id).isSome
  let restPods := st.podcasts.filter (fun p => !(p.id == podcast_id))
  let deleted_any :=
    !items.isEmpty ||
      (!track_ids.isEmpty && st.favorites.any (fun f => track_ids.contains f.track_id)) ||
      podcastFound
  if deleted_any then
    ({ st with podcasts := restPods, items := restItems, favorites := restFavs }, true)
  else (st, false)

/-- Repository.mark_item_watched_by_id: set watched=1 on the row with the
given primary key; return 1 if found, else 0. -/
def mark_item_watched_by_id (st : Store) (item_id : Nat) : Store × Nat :=
  match st.items.find? (fun it => it.id == some item_id) with
  | none => (st, 0)
  | some _ =>
    ({ st with
        items := st.items.map (fun it =>
          if it.id == some item_id then { it with watched := some 1 } else it) }, 1)

/-- Repository.unmark_item_watched_by_id: set watched=0 on the row with the
given primary key; return 1 if found, else 0. -/
def unmark_item_watched_by_id (st : Store) (item_id : Nat) : Store × Nat :=
  match st.items.find? (fun it => it.id == some item_id) with
  | none => (st, 0)
  | some _ =>
    ({ st with
        items := st.items.map (fun it =>
          if it.id == some item_id then { it with watched := some 0 } else it) }, 1)

/-- Byte-wise comparison of two TEXT values, as SQLite's BINARY collation
orders them in ORDER BY; on UTF-8 the memcmp order coincides with
codepoint-lexicographic order on the characters. -/
def textLe : List Char → List Char → Bool
  | [], _ => true
  | _ :: _, [] => false
  | a :: as, b :: bs =>
    if a.toNat < b.toNat then true
    else if b.toNat < a.toNat then false
    else textLe as bs

/-- ORDER BY comparison on the publish_date column: all stored values are
TEXT (the column is declared str), compared byte-wise, with SQL NULLs
sorting before every value ascending. -/
def pdLeB : Option String → Option String → Bool
  | none, _ => true
  | some _, none => false
  | some a, some b => textLe a.data b.data

/-- Ascending publish_date order (byte-wise on the stored text). -/
def ascRel (a b : PodcastItem) : Prop :=
  pdLeB a.publish_date b.publish_date = true

/-- Descending publish_date order (byte-wise on the stored text). -/
def descRel (a b : PodcastItem) : Prop :=
  pdLeB b.publish_date a.publish_date = true

instance : DecidableRel ascRel :=
  fun a b => inferInstanceAs (Decidable (pdLeB a.publish_date b.publish_date = true))

instance : DecidableRel descRel :=
  fun a b => inferInstanceAs (Decidable (pdLeB b.publish_date a.publish_date = true))

/-- A Python value handed to list_items as the limit argument. -/
inductive PyVal where
  | pyInt (n : Int)
  | pyStr (s : String)
deriving DecidableEq

/-- Accumulate decimal digits; any non-digit raises (None). -/
def parseDigitsAux : List Char → Nat → Option Nat
  | [], acc => some acc
  | c :: cs, acc =>
    if c.isDigit then parseDigitsAux cs (acc * 10 + (c.toNat - 48)) else none

/-- Python int(str): optional sign then at least one digit, else a raised
ValueError (None). -/
def parseIntChars : List Char → Option Int
  | [] => none
  | '-' :: cs =>
    if cs.isEmpty then none else (parseDigitsAux cs 0).map (fun n => -(n : Int))
  | '+' :: cs =>
    if cs.isEmpty then none else (parseDigitsAux cs 0).map (fun n => (n : Int))
  | l => (parseDigitsAux l 0).map (fun n => (n : Int))

/-- Python int(x) on a limit argument: identity on ints, parsing on strings. -/
def pyInt? : PyVal → Option Int
  | .pyInt n => some n
  | .pyStr s => parseIntChars s.data

/-- Chronological reading of the publish_date column as claim C8 understands
it: parse the stored text back to its integral epoch seconds (the digits,
with optional sign, before the dot). -/
def claimDateKey (it : PodcastItem) : WithBot Int :=
  match it.publish_date with
  | none => ⊥
  | some s =>
    match parseIntChars (s.data.takeWhile (fun c => c != '.')) with
    | some v => (v : WithBot Int)
    | none => ⊥

/-- Ascending chronological order on publish_date: what sorted ascending by
publish_date means in the claim. -/
def ascChronoRel (a b : PodcastItem) : Prop := claimDateKey a ≤ claimDateKey b

instance : DecidableRel ascChronoRel :=
  fun a b => inferInstanceAs (Decidable (claimDateKey a ≤ claimDateKey b))

/-- SQL LIMIT n; SQLite treats a negative limit as no limit. -/
def sqlLimit (n : Int) (l : List α) : List α :=
  if n < 0 then l else l.take n.toNat

/-- ASCII lowercase of str(order).lower(). -/
def lowerStr (s : String) : String := String.mk (s.data.map Char.toLower)

/-- The unfiltered-or-filtered row set of Repository.list_items. -/
def baseItems (st : Store) (podcast_id : Option Nat) : List PodcastItem :=
  match podcast_id with
  | none => st.items
  | some pid => st.items.filter (fun it => it.podcast_id == pid)

/-- The ordered row set of list_items before the limit is applied (the
sorted statement of the source, modelling ORDER BY as a stable sort with
SQLite's ordering on the TEXT publish_date column: NULLs first, then
byte-wise comparison of the stored strings). -/
def sortedItems (st : Store) (podcast_id : Option Nat) (order : String) :
    List PodcastItem :=
  if lowerStr order == "asc" then List.insertionSort ascRel (baseItems st podcast_id)
  else List.insertionSort descRel (baseItems st podcast_id)

/-- Repository.list_items: optional podcast filter, ORDER BY publish_date
asc when order lowercases to asc else desc, LIMIT int(limit) when that
conversion succeeds (an invalid limit is ignored). -/
def list_items (st : Store) (podcast_id : Option Nat) (order : String)
    (limit : Option PyVal) : List PodcastItem :=
  match limit with
  | none => sortedItems st podcast_id order
  | some v =>
    match pyInt? v with
    | none => sortedItems st podcast_id order
    | some n => sqlLimit n (sortedItems st podcast_id order)

/-- Epoch seconds of datetime(tm_year, tm_mon, tm_mday).timestamp() for the
UTC-normalized published time t: midnight of t's UTC calendar day shifted by
the local offset tz, because a naive datetime is interpreted in local time. -/
def dayStartLocal (tz : Int) (t : Nat) : Int :=
  ((t / 86400 : Nat) : Int) * 86400 - tz

/-- track_id derivation of schedule.update_rss_items lines 67-69:
int(_time * 1000). -/
def scheduleTrackId (tz : Int) (t : Nat) : Int := dayStartLocal tz t * 1000

/-- track_id derivation of main.create_podcast lines 97-102, transcribed
separately from its own source lines. -/
def mainTrackId (tz : Int) (t : Nat) : Int :=
  (((t / 86400 : Nat) : Int) * 86400 - tz) * 1000

/-- Milliseconds since epoch of midnight UTC of t's calendar day: the value
claim C3 asserts for track_id. -/
def midnightUtcMs (t : Nat) : Int := ((t / 86400 : Nat) : Int) * 86400000

/-- SQLite TEXT rendering of the integral-valued timestamp float the writers
bind to the publish_date column: TEXT affinity converts the REAL to its text
form, digits followed by a dot and a zero at these magnitudes. -/
def floatText (v : Int) : String := toString v ++ ".0"

/-- A parsed feed entry as exposed by feedparser; published is the epoch
second of the UTC-normalized published_parsed struct. -/
structure Entry where
  entryId : Option String
  guid : Option String
  title : Option String
  description : Option String
  itunes_keywords : Option String
  author : Option String
  itunes_author : Option String
  enclosures : List (Option String)
  itunes_image : Option String
  published : Nat
deriving DecidableEq

/-- The PodcastItem built for one entry in main.create_podcast lines 100-114. -/
def entryItemMain (tz : Int) (podcast_id : Nat) (created_image : Option String)
    (e : Entry) : PodcastItem :=
  { id := none
    podcast_id := podcast_id
    track_id := some (mainTrackId tz e.published)
    guid := some ((pyOrStr e.entryId (pyOrStr e.guid none)).getD "")
    title := e.title.getD "No title"
    desc := some ((pyOrStr e.description none).getD "")
    keywords := e.itunes_keywords
    author := pyOrStr e.author none
    media_url := match e.enclosures with | [] => none | h :: _ => h
    image_url := pyOrStr e.itunes_image created_image
    publish_date := some (floatText (dayStartLocal tz e.published))
    filename := none
    downloaded := some 0
    watched := some 0 }

/-- The PodcastItem built for one entry in schedule.update_rss_items lines
77-91 (this path also falls back to itunes_author and to the podcast's
image). -/
def entryItemSchedule (tz : Int) (p : Podcast) (e : Entry) : PodcastItem :=
  { id := none
    podcast_id := p.id
    track_id := some (scheduleTrackId tz e.published)
    guid := some ((pyOrStr e.entryId (pyOrStr e.guid none)).getD "")
    title := e.title.getD "No title"
    desc := some ((pyOrStr e.description none).getD "")
    keywords := e.itunes_keywords
    author := pyOrStr e.author (pyOrStr e.itunes_author none)
    media_url := match e.enclosures with | [] => none | h :: _ => h
    image_url := pyOrStr e.itunes_image p.image_url
    publish_date := some (floatText (dayStartLocal tz e.published))
    filename := none
    downloaded := some 0
    watched := some 0 }

/-- The per-entry loop of main.create_podcast: every entry goes through the
dedup insert. -/
def processEntriesMain (tz : Int) (podcast_id : Nat) (created_image : Option String)
    (st : Store) : List Entry → Store
  | [] => st
  | e :: es =>
    processEntriesMain tz podcast_id created_image
      (add_podcast_item_if_not_exists st (entryItemMain tz podcast_id created_image e)).1
      es

/-- The inner entry loop of schedule.update_rss_items lines 66-91: it only
rebinds the function-scoped Python variable item (the dedup-insert call of
line 92 is indented outside this loop), so its net effect is the last item
built for an entry whose key is not yet stored. -/
def lastBuiltItem (tz : Int) (p : Podcast) (st : Store) :
    Option PodcastItem → List Entry → Option PodcastItem
  | last, [] => last
  | last, e :: es =>
    if (st.items.find? (matchesKey p.id (some (scheduleTrackId tz e.published)))).isSome
    then lastBuiltItem tz p st last es
    else lastBuiltItem tz p st (some (entryItemSchedule tz p e)) es

/-- The podcast loop of schedule.update_rss_items; last models the
function-scoped item variable, and error models the NameError raised either
when a non-http rss_url reaches the unimported os module (line 60) or when
the line-92 insert reads item before any assignment. -/
def updateRssGo (tz : Int) (feeds : String → List Entry) :
    List Podcast → Store → Option PodcastItem → Except Unit Store
  | [], st, _ => .ok st
  | p :: ps, st, last =>
    match p.rss_url with
    | none => updateRssGo tz feeds ps st last
    | some url =>
      if !(strStartsWith url "http") then .error ()
      else
        match lastBuiltItem tz p st last (feeds url) with
        | none => .error ()
        | some item =>
          updateRssGo tz feeds ps (add_podcast_item_if_not_exists st item).1 (some item)

/-- schedule.update_rss_items: select podcasts with a feed URL and
suspended == 0, then run the per-podcast loop. -/
def update_rss_items (tz : Int) (feeds : String → List Entry) (st : Store) :
    Except Unit Store :=
  updateRssGo tz feeds
    (st.podcasts.filter (fun p => p.rss_url.isSome && p.suspended == some 0)) st none

/-- Selection of schedule.run line 106: downloaded == 0 OR downloaded IS NULL
(no suspension filter appears in this query). -/
def isPending (it : PodcastItem) : Bool :=
  it.downloaded == some 0 || it.downloaded == none

/-- ORDER BY id DESC key. -/
def idKey (it : PodcastItem) : WithBot Nat :=
  match it.id with
  | none => ⊥
  | some v => (v : WithBot Nat)

/-- Most-recently-inserted-first order of the download worklist. -/
def idDescRel (a b : PodcastItem) : Prop := idKey b ≤ idKey a

instance : DecidableRel idDescRel :=
  fun a b => inferInstanceAs (Decidable (idKey b ≤ idKey a))

instance : IsTotal PodcastItem idDescRel := ⟨fun a b => le_total (idKey b) (idKey a)⟩

instance : IsTrans PodcastItem idDescRel := ⟨fun _ _ _ h h2 => le_trans h2 h⟩

/-- The worklist of the download loop: pending episodes, highest id first. -/
def pendingSorted (st : Store) : List PodcastItem :=
  List.insertionSort idDescRel (st.items.filter isPending)

/-- Row state after a successful download of schedule.run lines 133-134. -/
def markDownloaded (it : PodcastItem) (url : String) : PodcastItem :=
  { it with
      filename := some (destFname it.podcast_id it.track_id it.title url)
      downloaded := some 1 }

/-- Guard of schedule.run line 110: limit is not None and updated >= limit. -/
def limitReached (limit : Option Int) (updated : Nat) : Bool :=
  match limit with
  | none => false
  | some n => n ≤ (updated : Nat)

/-- The download loop of schedule.run lines 109-141 over the selected
worklist.  A failed transfer leaves the row untouched and the loop moves on;
dry-run mutations stay session-local and are rolled back because a pure
dry run never commits; only a success increments updated. -/
def processItems (netOk : String → Bool) (limit : Option Int) (dryRun : Bool) :
    Nat → List PodcastItem → List PodcastItem × Nat
  | updated, [] => ([], updated)
  | updated, it :: rest =>
    if limitReached limit updated then (it :: rest, updated)
    else
      match it.media_url with
      | none =>
        let r := processItems netOk limit dryRun updated rest
        (it :: r.1, r.2)
      | some url =>
        if dryRun then
          let r := processItems netOk limit dryRun updated rest
          (it :: r.1, r.2)
        else if netOk url then
          let r := processItems netOk limit dryRun (updated + 1) rest
          (markDownloaded it url :: r.1, r.2)
        else
          let r := processItems netOk limit dryRun updated rest
          (it :: r.1, r.2)

/-- Write the per-row updates back to the table: each committed UPDATE keys
on the row's primary key. -/
def applyResult (orig processed : List PodcastItem) : List PodcastItem :=
  orig.map (fun row => (processed.find? (fun q => q.id == row.id)).getD row)

/-- The download phase of schedule.run. -/
def runDownloadPhase (netOk : String → Bool) (limit : Option Int) (dryRun : Bool)
    (st : Store) : Store × Nat :=
  let r := processItems netOk limit dryRun 0 (pendingSorted st)
  ({ st with items := applyResult st.items r.1 }, r.2)

/-- schedule.run: feed refresh then the download loop; returns the count of
episodes downloaded/updated. -/
def runSchedule (tz : Int) (feeds : String → List Entry) (netOk : String → Bool)
    (limit : Option Int) (dryRun : Bool) (st : Store) : Except Unit (Store × Nat) :=
  match update_rss_items tz feeds st with
  | .error e => .error e
  | .ok st1 => .ok (runDownloadPhase netOk limit dryRun st1)

/-- Episodes eligible for a successful download under netOk. -/
def eligibleFor (netOk : String → Bool) (it : PodcastItem) : Bool :=
  match it.media_url with
  | some u => netOk u
  | none => false

/-- Bound check of a row id against the next fresh primary key. -/
def idBelow (n : Nat) (it : PodcastItem) : Bool :=
  match it.id with
  | some v => v < n
  | none => true

/-- Well-formed id assignment of the items table: primary keys are pairwise
distinct and below the next fresh id. -/
def wfItemIds (st : Store) : Prop :=
  (st.items.map (fun it => it.id)).Nodup ∧ ∀ it ∈ st.items, idBelow st.nextItemId it = true

/-- Relation between a worklist row and its processed version: either
untouched, or marked downloaded after a successful transfer of its URL. -/
def dlRel (netOk : String → Bool) (o q : PodcastItem) : Prop :=
  q = o ∨ ∃ u, o.media_url = some u ∧ netOk u = true ∧ q = markDownloaded o u

/-- Frame relation of the watched setters: the row with the given primary key
changes only its watched column (to w); every other row is unchanged. -/
def watchedSetRel (item_id : Nat) (w : Nat) (o n : PodcastItem) : Prop :=
  if o.id = some item_id then
    n.id = o.id ∧ n.podcast_id = o.podcast_id ∧ n.track_id = o.track_id ∧
    n.guid = o.guid ∧ n.title = o.title ∧ n.desc = o.desc ∧
    n.keywords = o.keywords ∧ n.author = o.author ∧ n.media_url = o.media_url ∧
    n.image_url = o.image_url ∧ n.publish_date = o.publish_date ∧
    n.filename = o.filename ∧ n.downloaded = o.downloaded ∧ n.watched = some w
  else n = o

/-- Existing episode row used by the C1 witness. -/
def w1Existing : PodcastItem :=
  { id := some 1, podcast_id := 1, track_id := some 5, guid := none, title := "old",
    desc := none, keywords := none, author := none, media_url := none,
    image_url := none, publish_date := some "10.0", filename := none,
    downloaded := some 0, watched := some 0 }

/-- Incoming parsed entry with the same (podcast_id, track_id) key but
different content, used by the C1 witness. -/
def w1New : PodcastItem := { w1Existing with id := none, title := "new" }

/-- Store of the C1 witness. -/
def w1Store : Store :=
  { podcasts := [], items := [w1Existing], favorites := [], nextItemId := 2 }

/-- Active podcast of the C2 failing input. -/
def c2Podcast : Podcast :=
  { id := 1, title := "P", artist := none, genre := none,
    rss_url := some "http://feed", image_url := none, itunes_id := none,
    date := 0, suspended := some 0 }

/-- Feed entry published on epoch day 0 (C2 failing input). -/
def c2EntryA : Entry :=
  { entryId := some "gA", guid := none, title := some "A", description := none,
    itunes_keywords := none, author := none, itunes_author := none,
    enclosures := [], itunes_image := none, published := 0 }

/-- Feed entry published on epoch day 1 (C2 failing input). -/
def c2EntryB : Entry :=
  { entryId := some "gB", guid := none, title := some "B", description := none,
    itunes_keywords := none, author := none, itunes_author := none,
    enclosures := [], itunes_image := none, published := 86400 }

/-- Feed content of the C2 failing input: two new entries on distinct days. -/
def c2Feeds : String → List Entry :=
  fun u => if u == "http://feed" then [c2EntryA, c2EntryB] else []

/-- Store of the C2 failing input: one active podcast, no episodes yet. -/
def c2Store : Store :=
  { podcasts := [c2Podcast], items := [], favorites := [], nextItemId := 1 }

/-- Suspended podcast of the C4 counterexample. -/
def c4Podcast : Podcast :=
  { id := 1, title := "P", artist := none, genre := none,
    rss_url := some "http://feed", image_url := none, itunes_id := none,
    date := 0, suspended := some 1 }

/-- Pending episode of the suspended podcast (C4). -/
def c4Item : PodcastItem :=
  { id := some 10, podcast_id := 1, track_id := some 86400000, guid := some "",
    title := "t", desc := none, keywords := none, author := none,
    media_url := some "http://host/a.mp3", image_url := none,
    publish_date := some "86400.0", filename := none, downloaded := some 0,
    watched := some 0 }

/-- Store of the C4 counterexample: a suspended podcast with one pending
episode. -/
def c4Store : Store :=
  { podcasts := [c4Podcast], items := [c4Item], favorites := [], nextItemId := 11 }

/-- Store state after one run on c4Store with every transfer succeeding. -/
def c4After : Store :=
  { c4Store with
      items := [{ c4Item with
        downloaded := some 1, filename := some "pod1-trk86400000-t.mp3" }] }

/-- Orphan episode row (no owning podcast row) of the C5 counterexample. -/
def c5Item : PodcastItem :=
  { id := some 1, podcast_id := 1, track_id := some 5, guid := none, title := "x",
    desc := none, keywords := none, author := none, media_url := none,
    image_url := none, publish_date := none, filename := none,
    downloaded := some 0, watched := some 0 }

/-- Store of the C5 counterexample: an episode whose podcast row is absent. -/
def c5Store : Store :=
  { podcasts := [], items := [c5Item], favorites := [], nextItemId := 2 }

/-- Podcast of the C5 witness. -/
def w5Podcast : Podcast :=
  { id := 2, title := "Q", artist := none, genre := none, rss_url := none,
    image_url := none, itunes_id := none, date := 0, suspended := some 0 }

/-- Episode of the C5 witness podcast. -/
def w5Item : PodcastItem := { c5Item with podcast_id := 2, track_id := some 7 }

/-- Favorite matching the witness episode's track id. -/
def w5FavHit : FavoriteEpisode := { id := some 1, track_id := 7, added_at := 0, note := none }

/-- Favorite not matching any deleted track id. -/
def w5FavMiss : FavoriteEpisode := { id := some 2, track_id := 8, added_at := 0, note := none }

/-- Store of the C5 witness. -/
def w5Store : Store :=
  { podcasts := [w5Podcast], items := [w5Item], favorites := [w5FavHit, w5FavMiss],
    nextItemId := 2 }

/-- Pending episode whose transfer fails (C6 witness). -/
def w6Fail : PodcastItem :=
  { id := some 2, podcast_id := 1, track_id := some 3, guid := none, title := "f",
    desc := none, keywords := none, author := none,
    media_url := some "http://h/bad.mp3", image_url := none,
    publish_date := some "1.0", filename := none, downloaded := some 0,
    watched := some 0 }

/-- Pending episode whose transfer succeeds (C6 witness). -/
def w6Ok : PodcastItem :=
  { w6Fail with id := some 1, title := "g", media_url := some "http://h/ok.mp3" }

/-- Store of the C6 witness: the failing episode sits first in the worklist. -/
def w6Store : Store :=
  { podcasts := [], items := [w6Fail, w6Ok], favorites := [], nextItemId := 3 }

/-- Network oracle of the C6 witness: only the ok URL succeeds. -/
def w6Net : String → Bool := fun u => u == "http://h/ok.mp3"

/-- Episode of podcast 5 with the later publish date (C8 witness). -/
def w8a : PodcastItem :=
  { id := some 1, podcast_id := 5, track_id := some 1, guid := none, title := "a",
    desc := none, keywords := none, author := none, media_url := none,
    image_url := none, publish_date := some "10.0", filename := none,
    downloaded := some 0, watched := some 0 }

/-- Episode of podcast 5 with the other publish date (C8 witness). -/
def w8b : PodcastItem := { w8a with id := some 2, title := "b", publish_date := some "5.0" }

/-- Episode of another podcast (C8 witness). -/
def w8c : PodcastItem :=
  { w8a with id := some 3, podcast_id := 6, title := "c", publish_date := some "1.0" }

/-- Store of the C8 witness. -/
def w8Store : Store :=
  { podcasts := [], items := [w8a, w8b, w8c], favorites := [], nextItemId := 4 }

/-- Episode row of the C10 witness. -/
def w10Item : PodcastItem :=
  { id := some 7, podcast_id := 1, track_id := some 9, guid := none, title := "w",
    desc := none, keywords := none, author := none, media_url := none,
    image_url := none, publish_date := some "3.0", filename := none,
    downloaded := some 0, watched := some 0 }

/-- Store of the C10 witness. -/
def w10Store : Store :=
  { podcasts := [], items := [w10Item], favorites := [], nextItemId := 8 }

/-- Episode published 2001-09-08 (epoch 999993600), stored as TEXT (C8
failing input). -/
def cx8Early : PodcastItem :=
  { id := some 1, podcast_id := 5, track_id := some 999993600000, guid := none,
    title := "early", desc := none, keywords := none, author := none,
    media_url := none, image_url := none, publish_date := some "999993600.0",
    filename := none, downloaded := some 0, watched := some 0 }

/-- Episode published two days later, 2001-09-10 (epoch 1000080000), whose
TEXT form however sorts before the earlier one byte-wise (C8 failing
input). -/
def cx8Late : PodcastItem :=
  { cx8Early with
      id := some 2
      track_id := some 1000080000000
      title := "late"
      publish_date := some "1000080000.0" }

/-- Store of the C8 failing input: two episodes of podcast 5 whose stored
publish_date texts have different digit counts. -/
def cx8Store : Store :=
  { podcasts := [], items := [cx8Early, cx8Late], favorites := [], nextItemId := 3 }

/-! Helper lemmas about the sanitizer. -/

/-- Dropping a matching run never lengthens a list. -/
theorem dropWhile_length_le (p : α → Bool) (l : List α) :
    (l.dropWhile p).length ≤ l.length := by
  induction l with
  | nil => simp [List.dropWhile]
  | cons c cs ih =>
    simp only [List.dropWhile]
    split
    · exact Nat.le_succ_of_le ih
    · exact Nat.le_refl _

/-- dropWhile is the identity when no element matches. -/
theorem dropWhile_all_false (p : α → Bool) (l : List α)
    (h : ∀ a ∈ l, p a = false) : l.dropWhile p = l := by
  cases l with
  | nil => rfl
  | cons c cs =>
    simp only [List.dropWhile]
    rw [h c (List.mem_cons_self c cs)]

/-- Safe characters are never whitespace. -/
theorem isPySpace_eq_false_of_safe {c : Char} (h : isSafeChar c = true) :
    isPySpace c = false := by
  cases hs : isPySpace c
  · rfl
  · exfalso
    have h6 : c = ' ' ∨ c = '\t' ∨ c = '\n' ∨ c = '\r' ∨ c = '\x0b' ∨ c = '\x0c' := by
      simpa only [isPySpace, Bool.or_eq_true, beq_iff_eq, or_assoc] using hs
    rcases h6 with h1 | h1 | h1 | h1 | h1 | h1 <;> subst h1 <;> exact absurd h (by decide)

/-- Every character of a safe_filename output is in the safe class. -/
theorem mem_safe_filename_safe (s : String) :
    ∀ c ∈ (safe_filename s).data, isSafeChar c = true := by
  intro c hc
  have hc2 : c ∈ (subWsAux false (pyStrip s.data)).filter isSafeChar :=
    List.take_subset _ _ hc
  exact List.of_mem_filter hc2

/-- safe_filename output length is at most 240 characters. -/
theorem safe_filename_length_le (s : String) : (safe_filename s).data.length ≤ 240 := by
  show (((subWsAux false (pyStrip s.data)).filter isSafeChar).take 240).length ≤ 240
  rw [List.length_take]
  exact min_le_left _ _

/-- The whitespace state machine is the identity on whitespace-free input. -/
theorem subWsAux_id_of_nonspace (l : List Char)
    (h : ∀ c ∈ l, isPySpace c = false) : subWsAux false l = l := by
  induction l with
  | nil => rfl
  | cons c cs ih =>
    simp only [subWsAux, h c (List.mem_cons_self c cs)]
    rw [ih (fun d hd => h d (List.mem_cons_of_mem c hd))]
    simp

/-- Inside a whitespace run the state machine behaves like dropping the run. -/
theorem subWsAux_true_dropWhile (l : List Char) :
    subWsAux true l = subWsAux false (l.dropWhile isPySpace) := by
  induction l with
  | nil => rfl
  | cons c cs ih =>
    by_cases hc : isPySpace c = true
    · simp only [subWsAux, hc, List.dropWhile, if_true]
      exact ih
    · rw [Bool.not_eq_true] at hc
      simp only [subWsAux, hc, List.dropWhile]
      rfl

/-- The state machine of the source equals the run-collapsing form of the
claim wording (bounded by a fuel argument for the induction). -/
theorem subWsAux_eq_collapseRuns_aux :
    ∀ (n : Nat) (l : List Char), l.length ≤ n → subWsAux false l = collapseRuns l := by
  intro n
  induction n with
  | zero =>
    intro l h
    have hl : l = [] := List.length_eq_zero.mp (Nat.le_zero.mp h)
    subst hl
    simp [subWsAux, collapseRuns]
  | succ n ih =>
    intro l h
    cases l with
    | nil => simp [subWsAux, collapseRuns]
    | cons c cs =>
      by_cases hc : isPySpace c = true
      · have h1 : subWsAux false (c :: cs) = '-' :: subWsAux true cs := by
          simp [subWsAux, hc]
        have h2 : collapseRuns (c :: cs) = '-' :: collapseRuns (cs.dropWhile isPySpace) := by
          rw [collapseRuns]
          simp [hc]
        rw [h1, h2, subWsAux_true_dropWhile]
        have hlen : (cs.dropWhile isPySpace).length ≤ n := by
          have h3 := dropWhile_length_le isPySpace cs
          simp only [List.length_cons] at h
          omega
        rw [ih _ hlen]
      · rw [Bool.not_eq_true] at hc
        have h1 : subWsAux false (c :: cs) = c :: subWsAux false cs := by
          simp [subWsAux, hc]
        have h2 : collapseRuns (c :: cs) = c :: collapseRuns cs := by
          rw [collapseRuns]
          simp [hc]
        have hlen : cs.length ≤ n := by
          simp only [List.length_cons] at h
          omega
        rw [h1, h2, ih cs hlen]

/-- The source state machine equals the claim-worded run collapser. -/
theorem subWs_eq_collapse (l : List Char) : subWsAux false l = collapseRuns l :=
  subWsAux_eq_collapseRuns_aux l.length l (Nat.le_refl _)

/-! C3: track_id derivation. -/

/-- C3 counterexample: on a host with UTC offset +3600 (e.g. CET), the code's
track_id for an entry published at epoch second 90000 is 82800000, not the
86400000 milliseconds of midnight UTC the claim asserts. -/
theorem c3_trackid_counterexample : scheduleTrackId 3600 90000 ≠ midnightUtcMs 90000 := by
  decide

/-- C3 (amended): the derived track_id is the millisecond timestamp of local
midnight of the entry's UTC calendar day — datetime(y, m, d).timestamp()
reads the naive datetime in the process's local timezone — and it equals
midnight UTC exactly when the local offset is zero; the API create path and
the Sync Driver feed-refresh path use the identical derivation. -/
theorem c3_trackid_local_midnight :
    ∀ (tz : Int) (t : Nat),
      mainTrackId tz t = scheduleTrackId tz t ∧
      (scheduleTrackId tz t = midnightUtcMs t ↔ tz = 0) := by
  intro tz t
  refine ⟨rfl, ?_⟩
  simp only [scheduleTrackId, dayStartLocal, midnightUtcMs]
  constructor
  · intro h
    omega
  · intro h
    subst h
    ring

/-- C3 witness: with a zero offset the derivation does produce midnight UTC
milliseconds. -/
theorem c3_trackid_local_midnight_witness :
    scheduleTrackId 0 90000 = midnightUtcMs 90000 :=
  (c3_trackid_local_midnight 0 90000).2.mpr rfl

/-! C2: the feed-refresh phase inserts only the last new entry. -/

/-- C2: evaluating update_rss_items on one active podcast whose feed has two
new entries (derived keys 0 and 86400000, neither present) inserts exactly
one row, the one for the last entry: the dedup-insert call of schedule.py
line 92 is indented outside the per-entry loop, contradicting the claim that
every absent key gets a row. -/
theorem c2_update_rss_inserts_only_last_entry :
    (update_rss_items 0 c2Feeds c2Store).toOption.map
      (fun s2 => (s2.items.length,
        s2.items.any (fun it => sqlEqOptInt it.track_id (some 0)),
        s2.items.any (fun it => sqlEqOptInt it.track_id (some 86400000)))) =
      some (1, false, true) := by
  decide

/-! C7 and C9: the sanitizer. -/

/-- C7 counterexample: on the input consisting of a space then the letter a,
the code strips the leading whitespace run (yielding a), while the claimed
pipeline — replace every whitespace run by a hyphen, filter, truncate —
yields hyphen-a. -/
theorem c7_sanitize_counterexample :
    safe_filename " a" = "a" ∧ claimSanitize " a" = "-a" := by
  constructor
  · decide
  · show String.mk (((collapseRuns " a".data).filter isSafeChar).take 240) = "-a"
    rw [← subWs_eq_collapse]
    decide

/-- C7 (amended): safe_filename first strips leading and trailing whitespace,
then replaces each remaining whitespace run with one hyphen, removes every
character outside [A-Za-z0-9.\-_], and truncates to 240 characters; the
destination name is pod<podcast_id>-trk<track_id>-<sanitized_title><ext>
with ext the dot-suffix of the query-stripped URL (defaulting to .mp3) and
an empty title falling back to track-<track_id>. -/
theorem c7_safe_filename_pipeline :
    (∀ s, safe_filename s = specSanitize s) ∧
    safe_filename "My Show: Episode #1!" = "My-Show-Episode-1" ∧
    (∀ s, (safe_filename s).length ≤ 240) ∧
    destFname 1 (some 5) "" "http://x/a?b=c" = "pod1-trk5-track-5.mp3" ∧
    destFname 1 (some 5) "Ep 1" "http://x/a.ogg?b" = "pod1-trk5-Ep-1.ogg" := by
  refine ⟨fun s => ?_, by decide, fun s => safe_filename_length_le s, by decide, by decide⟩
  show String.mk (((subWsAux false (pyStrip s.data)).filter isSafeChar).take 240) =
    String.mk (((collapseRuns (pyStrip s.data)).filter isSafeChar).take 240)
  rw [subWs_eq_collapse]

/-- C9: safe_filename is idempotent — its output has no whitespace, only safe
characters, and at most 240 of them, so a second pass changes nothing. -/
theorem c9_safe_filename_idempotent :
    ∀ s, safe_filename (safe_filename s) = safe_filename s := by
  intro s
  have hsafe := mem_safe_filename_safe s
  have hns : ∀ c ∈ (safe_filename s).data, isPySpace c = false :=
    fun c hc => isPySpace_eq_false_of_safe (hsafe c hc)
  have hstrip : pyStrip (safe_filename s).data = (safe_filename s).data := by
    unfold pyStrip
    rw [dropWhile_all_false _ _ hns]
    rw [dropWhile_all_false _ _ (fun a ha => hns a (List.mem_reverse.mp ha))]
    exact List.reverse_reverse _
  have hsub : subWsAux false (safe_filename s).data = (safe_filename s).data :=
    subWsAux_id_of_nonspace _ hns
  have hfilter : ((safe_filename s).data).filter isSafeChar = (safe_filename s).data :=
    List.filter_eq_self.mpr hsafe
  show String.mk (((subWsAux false (pyStrip (safe_filename s).data)).filter isSafeChar).take 240) =
    safe_filename s
  rw [hstrip, hsub, hfilter, List.take_of_length_le (safe_filename_length_le s)]

/-! C1: dedup insert semantics. -/

/-- Membership in the items table survives a dedup insert. -/
theorem add_item_mem_preserved (st : Store) (x it : PodcastItem) (h : it ∈ st.items) :
    it ∈ (add_podcast_item_if_not_exists st x).1.items := by
  unfold add_podcast_item_if_not_exists
  split
  · exact h
  · exact List.mem_append_left _ h

/-- After a dedup insert, a row matching the inserted key is present. -/
theorem add_item_key_present (st : Store) (x : PodcastItem) (v : Int)
    (hx : x.track_id = some v) :
    ∃ row ∈ (add_podcast_item_if_not_exists st x).1.items,
      matchesKey x.podcast_id x.track_id row = true := by
  unfold add_podcast_item_if_not_exists
  split
  · next e heq =>
    exact ⟨e, List.mem_of_find?_eq_some heq, List.find?_some heq⟩
  · next heq =>
    refine ⟨{ x with id := some st.nextItemId }, List.mem_append_right _ (by simp), ?_⟩
    simp only [matchesKey]
    rw [hx]
    simp [sqlEqOptInt]

/-- Membership survives the whole create-podcast entry loop. -/
theorem processMain_mem_preserved (tz : Int) (pid : Nat) (img : Option String)
    (it : PodcastItem) :
    ∀ (es : List Entry) (st : Store), it ∈ st.items →
      it ∈ (processEntriesMain tz pid img st es).items := by
  intro es
  induction es with
  | nil => intro st h; exact h
  | cons e es ih =>
    intro st h
    exact ih _ (add_item_mem_preserved _ _ _ h)

/-- After the create-podcast entry loop, every processed entry's derived key
is present in the items table. -/
theorem processMain_key_present (tz : Int) (pid : Nat) (img : Option String) :
    ∀ (es : List Entry) (st : Store), ∀ e ∈ es,
      ∃ row ∈ (processEntriesMain tz pid img st es).items,
        matchesKey pid (some (mainTrackId tz e.published)) row = true := by
  intro es
  induction es with
  | nil => intro st e he; cases he
  | cons e0 es ih =>
    intro st e he
    rcases List.mem_cons.mp he with rfl | hmem
    · have h1 := add_item_key_present st (entryItemMain tz pid img e) _ rfl
      rcases h1 with ⟨row, hrow, hkey⟩
      exact ⟨row, processMain_mem_preserved tz pid img row es _ hrow, hkey⟩
    · exact ih _ e hmem

/-- The create-podcast entry loop is a no-op on a store that already holds a
row for every processed entry's key. -/
theorem processMain_noop_of_keys_present (tz : Int) (pid : Nat) (img : Option String) :
    ∀ (es : List Entry) (st : Store),
      (∀ e ∈ es, ∃ row ∈ st.items,
        matchesKey pid (some (mainTrackId tz e.published)) row = true) →
      processEntriesMain tz pid img st es = st := by
  intro es
  induction es with
  | nil => intro st _; rfl
  | cons e0 es ih =>
    intro st h
    have hsome : (st.items.find? (matchesKey pid (some (mainTrackId tz e0.published)))).isSome := by
      rw [List.find?_isSome]
      rcases h e0 (List.mem_cons_self _ _) with ⟨row, hrow, hkey⟩
      exact ⟨row, hrow, hkey⟩
    have hstep : (add_podcast_item_if_not_exists st (entryItemMain tz pid img e0)).1 = st := by
      unfold add_podcast_item_if_not_exists
      split
      · rfl
      · next heq =>
        rw [show (entryItemMain tz pid img e0).podcast_id = pid from rfl,
          show (entryItemMain tz pid img e0).track_id = some (mainTrackId tz e0.published) from rfl] at heq
        rw [heq] at hsome
        cases hsome
    show processEntriesMain tz pid img (add_podcast_item_if_not_exists st (entryItemMain tz pid img e0)).1 es = st
    rw [hstep]
    exact ih st (fun e he => h e (List.mem_cons_of_mem _ he))

/-- C1: when a row with the incoming entry's (podcast_id, track_id) already
exists, the dedup insert returns that row and leaves the store untouched;
consequently a second pass of the per-entry dedup-insert loop over the same
parsed entries changes nothing (zero new episodes). -/
theorem c1_dedup_insert_noop :
    (∀ (st : Store) (item existing : PodcastItem),
      st.items.find? (matchesKey item.podcast_id item.track_id) = some existing →
      add_podcast_item_if_not_exists st item = (st, existing)) ∧
    (∀ (tz : Int) (pid : Nat) (img : Option String) (st : Store) (es : List Entry),
      processEntriesMain tz pid img (processEntriesMain tz pid img st es) es =
        processEntriesMain tz pid img st es) := by
  constructor
  · intro st item existing h
    unfold add_podcast_item_if_not_exists
    rw [h]
  · intro tz pid img st es
    exact processMain_noop_of_keys_present tz pid img es _
      (fun e he => processMain_key_present tz pid img es st e he)

/-- C1 witness: inserting an entry whose key (1, 5) is already stored returns
the existing row and the unchanged store. -/
theorem c1_dedup_insert_noop_witness :
    add_podcast_item_if_not_exists w1Store w1New = (w1Store, w1Existing) :=
  c1_dedup_insert_noop.1 w1Store w1New w1Existing (by decide)
/-! C5: cascading delete. -/

/-- Unfolding of the cascading delete with its session let-bindings expanded. -/
theorem delete_podcast_eq (st : Store) (pid : Nat) :
    delete_podcast_and_related st pid =
      (if ((!(st.items.filter (fun it => it.podcast_id == pid)).isEmpty ||
          (!(deletedTrackIds st pid).isEmpty &&
            st.favorites.any (fun f => (deletedTrackIds st pid).contains f.track_id)) ||
          (get_podcast st pid).isSome) = true)
      then
        ({ podcasts := st.podcasts.filter (fun p => !(p.id == pid)),
           items := st.items.filter (fun it => !(it.podcast_id == pid)),
           favorites :=
             if (deletedTrackIds st pid).isEmpty then st.favorites
             else st.favorites.filter (fun f => !((deletedTrackIds st pid).contains f.track_id)),
           nextItemId := st.nextItemId }, true)
      else (st, false)) := rfl

/-- Closed form of the cascading delete: the three tables are filtered in one
transition and the flag reports whether anything matched; when nothing
matched the filters are identities, so the skipped commit changes nothing. -/
theorem delete_podcast_form (st : Store) (pid : Nat) :
    delete_podcast_and_related st pid =
      ({ podcasts := st.podcasts.filter (fun p => !(p.id == pid)),
         items := st.items.filter (fun it => !(it.podcast_id == pid)),
         favorites :=
           if (deletedTrackIds st pid).isEmpty then st.favorites
           else st.favorites.filter (fun f => !((deletedTrackIds st pid).contains f.track_id)),
         nextItemId := st.nextItemId },
       (!(st.items.filter (fun it => it.podcast_id == pid)).isEmpty ||
         (!(deletedTrackIds st pid).isEmpty &&
           st.favorites.any (fun f => (deletedTrackIds st pid).contains f.track_id)) ||
         (get_podcast st pid).isSome)) := by
  rw [delete_podcast_eq]
  by_cases hd : (!(st.items.filter (fun it => it.podcast_id == pid)).isEmpty ||
      (!(deletedTrackIds st pid).isEmpty &&
        st.favorites.any (fun f => (deletedTrackIds st pid).contains f.track_id)) ||
      (get_podcast st pid).isSome) = true
  · rw [if_pos hd, hd]
  · rw [if_neg hd]
    have hd' := Bool.eq_false_iff.mpr hd
    rw [Bool.or_eq_false_iff, Bool.or_eq_false_iff] at hd'
    obtain ⟨⟨h1, _⟩, h3⟩ := hd'
    rw [Bool.not_eq_false'] at h1
    have hfe : st.items.filter (fun it => it.podcast_id == pid) = [] :=
      List.isEmpty_iff.mp h1
    have hgpn : get_podcast st pid = none := by
      cases hc : get_podcast st pid with
      | none => rfl
      | some p => rw [hc] at h3; cases h3
    have hpods : st.podcasts.filter (fun p => !(p.id == pid)) = st.podcasts := by
      apply List.filter_eq_self.mpr
      intro p hp
      have hnp := List.find?_eq_none.mp hgpn p hp
      rw [Bool.not_eq_true']
      exact Bool.eq_false_iff.mpr hnp
    have hitems2 : st.items.filter (fun it => !(it.podcast_id == pid)) = st.items := by
      apply List.filter_eq_self.mpr
      intro it hit
      have hni := List.filter_eq_nil_iff.mp hfe it hit
      rw [Bool.not_eq_true']
      exact Bool.eq_false_iff.mpr hni
    have htr : (deletedTrackIds st pid).isEmpty = true := by
      unfold deletedTrackIds
      rw [hfe]
      rfl
    rw [hpods, hitems2, htr, h1, h3, if_pos rfl]
    rfl

/-- C5 counterexample: on a store holding an episode row with podcast_id 1
but no podcast row 1, the delete returns true while the podcast lookup is
not-found, refuting that false is returned exactly when the podcast was not
found. -/
theorem c5_delete_counterexample :
    (delete_podcast_and_related c5Store 1).2 = true ∧ get_podcast c5Store 1 = none := by
  decide

/-- C5 (amended): delete_podcast_and_related removes, in one transition, all
episodes owned by the podcast, exactly the FavoriteEpisodes whose track_id
matches one of those episodes' non-null track_ids, and the podcast row,
keeping everything else; afterwards a lookup of the podcast returns
not-found.  It returns false exactly when nothing matched (no episode row
with that podcast_id and no podcast row) — so false implies the podcast was
not found, and in a store where every episode's podcast_id references an
existing podcast row, false holds exactly when the podcast was not found. -/
theorem c5_delete_cascade :
    ∀ (st : Store) (pid : Nat),
      (∀ it ∈ (delete_podcast_and_related st pid).1.items, (it.podcast_id == pid) = false) ∧
      (∀ it ∈ st.items, (it.podcast_id == pid) = false →
        it ∈ (delete_podcast_and_related st pid).1.items) ∧
      (∀ f ∈ st.favorites,
        (f ∈ (delete_podcast_and_related st pid).1.favorites ↔
          ((deletedTrackIds st pid).contains f.track_id) = false)) ∧
      get_podcast (delete_podcast_and_related st pid).1 pid = none ∧
      ((delete_podcast_and_related st pid).2 = false ↔
        st.items.filter (fun it => it.podcast_id == pid) = [] ∧ get_podcast st pid = none) ∧
      ((∀ it ∈ st.items, ∃ p ∈ st.podcasts, p.id = it.podcast_id) →
        ((delete_podcast_and_related st pid).2 = false ↔ get_podcast st pid = none)) := by
  intro st pid
  have hform := delete_podcast_form st pid
  have hc5 : (delete_podcast_and_related st pid).2 = false ↔
      st.items.filter (fun it => it.podcast_id == pid) = [] ∧ get_podcast st pid = none := by
    simp only [hform]
    constructor
    · intro h2
      rw [Bool.or_eq_false_iff, Bool.or_eq_false_iff] at h2
      obtain ⟨⟨h1, _⟩, h3⟩ := h2
      rw [Bool.not_eq_false'] at h1
      refine ⟨List.isEmpty_iff.mp h1, ?_⟩
      cases hc : get_podcast st pid with
      | none => rfl
      | some p => rw [hc] at h3; cases h3
    · rintro ⟨h1, h2⟩
      have htr : (deletedTrackIds st pid).isEmpty = true := by
        unfold deletedTrackIds
        rw [h1]
        rfl
      rw [Bool.or_eq_false_iff, Bool.or_eq_false_iff]
      refine ⟨⟨?_, ?_⟩, ?_⟩
      · rw [Bool.not_eq_false']
        exact List.isEmpty_iff.mpr h1
      · rw [htr]
        rfl
      · rw [h2]
        rfl
  refine ⟨?_, ?_, ?_, ?_, hc5, ?_⟩
  · intro it hit
    simp only [hform] at hit
    have hcond := (List.mem_filter.mp hit).2
    rw [Bool.not_eq_true'] at hcond
    exact hcond
  · intro it hit hne
    simp only [hform]
    exact List.mem_filter.mpr ⟨hit, by rw [Bool.not_eq_true']; exact hne⟩
  · intro f hf
    simp only [hform]
    by_cases hE : (deletedTrackIds st pid).isEmpty = true
    · rw [if_pos hE]
      have hnil : deletedTrackIds st pid = [] := List.isEmpty_iff.mp hE
      rw [hnil]
      simp [hf]
    · rw [if_neg hE]
      rw [List.mem_filter]
      constructor
      · rintro ⟨_, hc⟩
        rw [Bool.not_eq_true'] at hc
        exact hc
      · intro hc
        exact ⟨hf, by rw [Bool.not_eq_true']; exact hc⟩
  · simp only [hform]
    apply List.find?_eq_none.mpr
    intro p hp
    have hcond := (List.mem_filter.mp hp).2
    rw [Bool.not_eq_true'] at hcond
    exact Bool.eq_false_iff.mp hcond
  · intro hwf
    constructor
    · intro h2
      exact (hc5.mp h2).2
    · intro hgp
      apply hc5.mpr
      refine ⟨?_, hgp⟩
      by_cases hA : st.items.filter (fun it => it.podcast_id == pid) = []
      · exact hA
      · exfalso
        rcases List.exists_mem_of_ne_nil _ hA with ⟨it, hit⟩
        have hmem := List.mem_of_mem_filter hit
        have hpid : it.podcast_id = pid := by
          have := (List.mem_filter.mp hit).2
          simpa using this
        rcases hwf it hmem with ⟨p, hpmem, hpeq⟩
        have hsome : (st.podcasts.find? (fun p => p.id == pid)).isSome := by
          rw [List.find?_isSome]
          exact ⟨p, hpmem, by simp [hpeq, hpid]⟩
        rw [show st.podcasts.find? (fun p => p.id == pid) = get_podcast st pid from rfl,
          hgp] at hsome
        cases hsome

/-- C5 witness: deleting podcast 2 from a store with one episode (track 7)
and favorites on tracks 7 and 8 makes the podcast lookup not-found, and the
false-return condition matches podcast-not-found under referential
integrity. -/
theorem c5_delete_cascade_witness :
    get_podcast (delete_podcast_and_related w5Store 2).1 2 = none ∧
      ((delete_podcast_and_related w5Store 2).2 = false ↔ get_podcast w5Store 2 = none) :=
  ⟨(c5_delete_cascade w5Store 2).2.2.2.1,
    (c5_delete_cascade w5Store 2).2.2.2.2.2 (by decide)⟩

/-! C10: the watched setters. -/

/-- A pointwise relation holds between a list and its image under a map. -/
theorem forall2_map_self {α : Type _} {R : α → α → Prop} (f : α → α) :
    ∀ (l : List α), (∀ x ∈ l, R x (f x)) → List.Forall₂ R l (l.map f) := by
  intro l
  induction l with
  | nil => intro _; exact List.Forall₂.nil
  | cons c cs ih =>
    intro h
    exact List.Forall₂.cons (h c (List.mem_cons_self c cs))
      (ih (fun x hx => h x (List.mem_cons_of_mem c hx)))

/-- C10: mark_item_watched_by_id and unmark_item_watched_by_id return 0 and
leave the store untouched when no row has the given primary key; when a row
exists they return 1, leave the podcasts and favorites tables and the id
counter unchanged, and rewrite the items table pointwise so that the row
with the given id changes only its watched column (to 1 resp. 0) and every
other row is unchanged. -/
theorem c10_watched_frame :
    ∀ (st : Store) (item_id : Nat),
      (st.items.find? (fun it => it.id == some item_id) = none →
        mark_item_watched_by_id st item_id = (st, 0) ∧
        unmark_item_watched_by_id st item_id = (st, 0)) ∧
      ((st.items.find? (fun it => it.id == some item_id)).isSome →
        (mark_item_watched_by_id st item_id).2 = 1 ∧
        (mark_item_watched_by_id st item_id).1.podcasts = st.podcasts ∧
        (mark_item_watched_by_id st item_id).1.favorites = st.favorites ∧
        (mark_item_watched_by_id st item_id).1.nextItemId = st.nextItemId ∧
        List.Forall₂ (watchedSetRel item_id 1) st.items
          (mark_item_watched_by_id st item_id).1.items ∧
        (unmark_item_watched_by_id st item_id).2 = 1 ∧
        (unmark_item_watched_by_id st item_id).1.podcasts = st.podcasts ∧
        (unmark_item_watched_by_id st item_id).1.favorites = st.favorites ∧
        (unmark_item_watched_by_id st item_id).1.nextItemId = st.nextItemId ∧
        List.Forall₂ (watchedSetRel item_id 0) st.items
          (unmark_item_watched_by_id st item_id).1.items) := by
  intro st item_id
  constructor
  · intro h
    constructor
    · unfold mark_item_watched_by_id
      rw [h]
    · unfold unmark_item_watched_by_id
      rw [h]
  · intro h
    rcases Option.isSome_iff_exists.mp h with ⟨e, he⟩
    have hmark : mark_item_watched_by_id st item_id =
        ({ st with items := st.items.map (fun it =>
            if it.id == some item_id then { it with watched := some 1 } else it) }, 1) := by
      unfold mark_item_watched_by_id
      rw [he]
    have hunmark : unmark_item_watched_by_id st item_id =
        ({ st with items := st.items.map (fun it =>
            if it.id == some item_id then { it with watched := some 0 } else it) }, 1) := by
      unfold unmark_item_watched_by_id
      rw [he]
    rw [hmark, hunmark]
    refine ⟨rfl, rfl, rfl, rfl, ?_, rfl, rfl, rfl, rfl, ?_⟩
    · apply forall2_map_self
      intro x _
      by_cases hid : x.id = some item_id
      · have hb : (x.id == some item_id) = true := by simp [hid]
        simp [watchedSetRel, hid, hb]
      · have hb : (x.id == some item_id) = false := by simp [hid]
        simp [watchedSetRel, hid, hb]
    · apply forall2_map_self
      intro x _
      by_cases hid : x.id = some item_id
      · have hb : (x.id == some item_id) = true := by simp [hid]
        simp [watchedSetRel, hid, hb]
      · have hb : (x.id == some item_id) = false := by simp [hid]
        simp [watchedSetRel, hid, hb]

/-- C10 witness: marking row 7 returns 1; unmarking a missing id 9 returns 0
with the store unchanged. -/
theorem c10_watched_frame_witness :
    (mark_item_watched_by_id w10Store 7).2 = 1 ∧
      unmark_item_watched_by_id w10Store 9 = (w10Store, 0) :=
  ⟨((c10_watched_frame w10Store 7).2 (by decide)).1,
    ((c10_watched_frame w10Store 9).1 (by decide)).2⟩
/-! C8: list_items. -/

/-- The byte-wise TEXT order is total. -/
theorem textLe_total : ∀ (a b : List Char), textLe a b = true ∨ textLe b a = true := by
  intro a
  induction a with
  | nil => intro b; left; rfl
  | cons x xs ih =>
    intro b
    cases b with
    | nil => right; rfl
    | cons y ys =>
      by_cases h1 : x.toNat < y.toNat
      · left
        simp [textLe, h1]
      · by_cases h2 : y.toNat < x.toNat
        · right
          simp [textLe, h2]
        · rcases ih ys with h | h
          · left
            simp [textLe, h1, h2, h]
          · right
            simp [textLe, h1, h2, h]

/-- The byte-wise TEXT order is transitive. -/
theorem textLe_trans : ∀ (a b c : List Char),
    textLe a b = true → textLe b c = true → textLe a c = true := by
  intro a
  induction a with
  | nil => intro b c _ _; rfl
  | cons x xs ih =>
    intro b c h1 h2
    cases b with
    | nil => simp [textLe] at h1
    | cons y ys =>
      cases c with
      | nil => simp [textLe] at h2
      | cons z zs =>
        by_cases hxy : x.toNat < y.toNat
        · by_cases hyz : y.toNat < z.toNat
          · have hxz : x.toNat < z.toNat := Nat.lt_trans hxy hyz
            simp [textLe, hxz]
          · by_cases hzy : z.toNat < y.toNat
            · simp [textLe, hyz, hzy] at h2
            · have hxz : x.toNat < z.toNat := by omega
              simp [textLe, hxz]
        · by_cases hyx : y.toNat < x.toNat
          · simp [textLe, hxy, hyx] at h1
          · by_cases hyz : y.toNat < z.toNat
            · have hxz : x.toNat < z.toNat := by omega
              simp [textLe, hxz]
            · by_cases hzy : z.toNat < y.toNat
              · simp [textLe, hyz, hzy] at h2
              · have hxz : ¬x.toNat < z.toNat := by omega
                have hzx : ¬z.toNat < x.toNat := by omega
                simp [textLe, hxy, hyx] at h1
                simp [textLe, hyz, hzy] at h2
                simp [textLe, hxz, hzx]
                exact ih ys zs h1 h2

/-- The publish_date column order is total. -/
theorem pdLeB_total (a b : Option String) : pdLeB a b = true ∨ pdLeB b a = true := by
  cases a with
  | none => left; rfl
  | some s =>
    cases b with
    | none => right; rfl
    | some t => exact textLe_total s.data t.data

/-- The publish_date column order is transitive. -/
theorem pdLeB_trans (a b c : Option String) (h1 : pdLeB a b = true)
    (h2 : pdLeB b c = true) : pdLeB a c = true := by
  cases a with
  | none => rfl
  | some s =>
    cases b with
    | none => simp [pdLeB] at h1
    | some t =>
      cases c with
      | none => simp [pdLeB] at h2
      | some u => exact textLe_trans s.data t.data u.data h1 h2

instance : IsTotal PodcastItem ascRel :=
  ⟨fun a b => pdLeB_total a.publish_date b.publish_date⟩

instance : IsTrans PodcastItem ascRel := ⟨fun _ _ _ h h2 => pdLeB_trans _ _ _ h h2⟩

instance : IsTotal PodcastItem descRel :=
  ⟨fun a b => pdLeB_total b.publish_date a.publish_date⟩

instance : IsTrans PodcastItem descRel := ⟨fun _ _ _ h h2 => pdLeB_trans _ _ _ h2 h⟩

/-- The ordered row set is a permutation of the filtered row set. -/
theorem sortedItems_perm (st : Store) (pid : Option Nat) (order : String) :
    (sortedItems st pid order).Perm (baseItems st pid) := by
  unfold sortedItems
  split
  · exact List.perm_insertionSort _ _
  · exact List.perm_insertionSort _ _

/-- When order lowercases to asc the row set is sorted ascending. -/
theorem sortedItems_sorted_asc (st : Store) (pid : Option Nat) (order : String)
    (h : lowerStr order = "asc") : (sortedItems st pid order).Sorted ascRel := by
  unfold sortedItems
  rw [if_pos (by simp [h])]
  exact List.sorted_insertionSort _ _

/-- Otherwise the row set is sorted descending. -/
theorem sortedItems_sorted_desc (st : Store) (pid : Option Nat) (order : String)
    (h : lowerStr order ≠ "asc") : (sortedItems st pid order).Sorted descRel := by
  unfold sortedItems
  rw [if_neg (by simpa using h)]
  exact List.sorted_insertionSort _ _

/-- Evaluation of list_items with no limit argument. -/
theorem list_items_none (st : Store) (pid : Option Nat) (order : String) :
    list_items st pid order none = sortedItems st pid order := rfl

/-- Evaluation of list_items with a limit argument: int(limit) decides
whether a LIMIT is applied. -/
theorem list_items_some (st : Store) (pid : Option Nat) (order : String) (v : PyVal) :
    list_items st pid order (some v) =
      (match pyInt? v with
        | none => sortedItems st pid order
        | some n => sqlLimit n (sortedItems st pid order)) := rfl

/-- list_items returns either the full ordered set or a nonnegative prefix of
it. -/
theorem list_items_result (st : Store) (pid : Option Nat) (order : String)
    (limit : Option PyVal) :
    list_items st pid order limit = sortedItems st pid order ∨
    ∃ n : Int, 0 ≤ n ∧
      list_items st pid order limit = (sortedItems st pid order).take n.toNat := by
  cases limit with
  | none => exact Or.inl (list_items_none st pid order)
  | some v =>
    rw [list_items_some]
    cases hpv : pyInt? v with
    | none => exact Or.inl rfl
    | some n =>
      by_cases hn : n < 0
      · left
        show sqlLimit n (sortedItems st pid order) = sortedItems st pid order
        unfold sqlLimit
        rw [if_pos hn]
      · right
        refine ⟨n, by omega, ?_⟩
        show sqlLimit n (sortedItems st pid order) = (sortedItems st pid order).take n.toNat
        unfold sqlLimit
        rw [if_neg hn]

/-- Full contract of list_items over the store as it actually is: the result
filters to the given podcast when one is provided, is ordered by the
byte-wise TEXT comparison of the stored publish_date strings (ascending
exactly when order lowercases to asc, descending otherwise), is capped at a
valid nonnegative integer limit, and an invalid limit is silently ignored
with the full filtered set returned (the function is total: no error is
raised). -/
theorem c8_list_items_contract :
    ∀ (st : Store) (pid : Option Nat) (order : String) (limit : Option PyVal),
      (∀ it ∈ list_items st pid order limit, it ∈ baseItems st pid) ∧
      (∀ it ∈ list_items st pid order limit, ∀ p, pid = some p →
        (it.podcast_id == p) = true) ∧
      (lowerStr order = "asc" → (list_items st pid order limit).Sorted ascRel) ∧
      (lowerStr order ≠ "asc" → (list_items st pid order limit).Sorted descRel) ∧
      (∀ v n, limit = some v → pyInt? v = some n → 0 ≤ n →
        ((list_items st pid order limit).length : Int) ≤ n) ∧
      (∀ v, limit = some v → pyInt? v = none →
        (list_items st pid order limit).Perm (baseItems st pid)) ∧
      (limit = none → (list_items st pid order limit).Perm (baseItems st pid)) := by
  intro st pid order limit
  have hres := list_items_result st pid order limit
  have hmem : ∀ it ∈ list_items st pid order limit, it ∈ baseItems st pid := by
    intro it hit
    rcases hres with he | ⟨n, _, he⟩
    · rw [he] at hit
      exact (sortedItems_perm st pid order).mem_iff.mp hit
    · rw [he] at hit
      exact (sortedItems_perm st pid order).mem_iff.mp (List.take_subset _ _ hit)
  refine ⟨hmem, ?_, ?_, ?_, ?_, ?_, ?_⟩
  · intro it hit p hp
    subst hp
    have hb : it ∈ st.items.filter (fun it2 => it2.podcast_id == p) := hmem it hit
    exact (List.mem_filter.mp hb).2
  · intro hasc
    rcases hres with he | ⟨n, _, he⟩
    · rw [he]
      exact sortedItems_sorted_asc st pid order hasc
    · rw [he]
      exact List.Pairwise.sublist (List.take_sublist _ _)
        (sortedItems_sorted_asc st pid order hasc)
  · intro hdesc
    rcases hres with he | ⟨n, _, he⟩
    · rw [he]
      exact sortedItems_sorted_desc st pid order hdesc
    · rw [he]
      exact List.Pairwise.sublist (List.take_sublist _ _)
        (sortedItems_sorted_desc st pid order hdesc)
  · intro v n hv hpv hn
    subst hv
    have hres2 : list_items st pid order (some v) =
        (sortedItems st pid order).take n.toNat := by
      rw [list_items_some, hpv]
      show sqlLimit n (sortedItems st pid order) = (sortedItems st pid order).take n.toNat
      unfold sqlLimit
      rw [if_neg (by omega : ¬n < 0)]
    rw [hres2]
    have h1 : ((sortedItems st pid order).take n.toNat).length ≤ n.toNat := by
      rw [List.length_take]
      exact min_le_left _ _
    omega
  · intro v hv hpv
    subst hv
    have hres2 : list_items st pid order (some v) = sortedItems st pid order := by
      rw [list_items_some, hpv]
    rw [hres2]
    exact sortedItems_perm st pid order
  · intro hv
    subst hv
    exact sortedItems_perm st pid order

/-- Concrete exercise of the contract: at most two rows come back for
podcast 5 with a string limit of 2, ordered ascending (text order) under
the case-insensitive ASC. -/
theorem c8_list_items_contract_witness :
    ((list_items w8Store (some 5) "ASC" (some (PyVal.pyStr "2"))).length : Int) ≤ 2 ∧
      (list_items w8Store (some 5) "ASC" (some (PyVal.pyStr "2"))).Sorted ascRel :=
  ⟨(c8_list_items_contract w8Store (some 5) "ASC" (some (PyVal.pyStr "2"))).2.2.2.2.1
      (PyVal.pyStr "2") 2 rfl (by decide) (by decide),
    (c8_list_items_contract w8Store (some 5) "ASC" (some (PyVal.pyStr "2"))).2.2.1
      (by decide)⟩

/-- C8: the claimed chronological sort fails on the code.  The publish_date
column is declared str (models.py line 29), so the floats every writer binds
are stored as TEXT and ORDER BY compares them byte-wise: asking for
ascending order over two episodes published on 2001-09-08 (999993600.0) and
2001-09-10 (1000080000.0) returns the chronologically later one first —
the result is not sorted ascending by publish_date, although the later
episode has the strictly larger timestamp.  This contradicts the claim, the
repository docstring (default desc means latest first) and the spec's
numeric epoch-seconds publish_date, marking the column's str declaration as
the slip. -/
theorem c8_text_order_bug :
    list_items cx8Store (some 5) "asc" none = [cx8Late, cx8Early] ∧
    ¬(list_items cx8Store (some 5) "asc" none).Sorted ascChronoRel ∧
    claimDateKey cx8Early < claimDateKey cx8Late := by
  refine ⟨by decide, ?_, by decide⟩
  intro hs
  have h2 : ascChronoRel cx8Late cx8Early := by
    have he : list_items cx8Store (some 5) "asc" none = [cx8Late, cx8Early] := by decide
    rw [he] at hs
    exact List.rel_of_sorted_cons hs cx8Early (List.mem_singleton_self _)
  have h3 : ¬ascChronoRel cx8Late cx8Early := by decide
  exact h3 h2

/-! C6: the download loop. -/

/-- Loop step when the run-scoped limit is reached: the remaining worklist is
untouched. -/
theorem processItems_cons_limit (netOk : String → Bool) (lim : Option Int) (d : Bool)
    (u0 : Nat) (it : PodcastItem) (rest : List PodcastItem)
    (h : limitReached lim u0 = true) :
    processItems netOk lim d u0 (it :: rest) = (it :: rest, u0) := by
  simp [processItems, h]

/-- Loop step for an episode with no media URL: skipped. -/
theorem processItems_cons_nomedia (netOk : String → Bool) (lim : Option Int) (d : Bool)
    (u0 : Nat) (it : PodcastItem) (rest : List PodcastItem)
    (h : limitReached lim u0 = false) (hm : it.media_url = none) :
    processItems netOk lim d u0 (it :: rest) =
      (it :: (processItems netOk lim d u0 rest).1, (processItems netOk lim d u0 rest).2) := by
  simp [processItems, h, hm]

/-- Loop step in dry-run mode: the row is left untouched in the store. -/
theorem processItems_cons_dry (netOk : String → Bool) (lim : Option Int)
    (u0 : Nat) (it : PodcastItem) (rest : List PodcastItem) (url : String)
    (h : limitReached lim u0 = false) (hm : it.media_url = some url) :
    processItems netOk lim true u0 (it :: rest) =
      (it :: (processItems netOk lim true u0 rest).1,
        (processItems netOk lim true u0 rest).2) := by
  simp [processItems, h, hm]

/-- Loop step for a successful transfer: the row is marked and the success
counter moves. -/
theorem processItems_cons_ok (netOk : String → Bool) (lim : Option Int)
    (u0 : Nat) (it : PodcastItem) (rest : List PodcastItem) (url : String)
    (h : limitReached lim u0 = false) (hm : it.media_url = some url)
    (hn : netOk url = true) :
    processItems netOk lim false u0 (it :: rest) =
      (markDownloaded it url :: (processItems netOk lim false (u0 + 1) rest).1,
        (processItems netOk lim false (u0 + 1) rest).2) := by
  simp [processItems, h, hm, hn]

/-- Loop step for a failed transfer: the row is untouched and the counter
does not move. -/
theorem processItems_cons_fail (netOk : String → Bool) (lim : Option Int)
    (u0 : Nat) (it : PodcastItem) (rest : List PodcastItem) (url : String)
    (h : limitReached lim u0 = false) (hm : it.media_url = some url)
    (hn : netOk url = false) :
    processItems netOk lim false u0 (it :: rest) =
      (it :: (processItems netOk lim false u0 rest).1,
        (processItems netOk lim false u0 rest).2) := by
  simp [processItems, h, hm, hn]

/-- The loop's final count is the limit-capped number of eligible episodes:
only successful transfers consume the budget. -/
theorem processItems_count (netOk : String → Bool) (L : Nat) :
    ∀ (l : List PodcastItem) (u0 : Nat), u0 ≤ L →
      (processItems netOk (some (L : Int)) false u0 l).2 =
        min L (u0 + (l.filter (eligibleFor netOk)).length) := by
  intro l
  induction l with
  | nil =>
    intro u0 h
    have he : processItems netOk (some (L : Int)) false u0 [] = ([], u0) := by
      simp [processItems]
    rw [he]
    simp
    omega
  | cons it rest ih =>
    intro u0 h
    cases hlim : limitReached (some (L : Int)) u0 with
    | true =>
      have hu : (L : Int) ≤ (u0 : Int) := by
        simpa [limitReached] using hlim
      rw [processItems_cons_limit _ _ _ _ _ _ hlim]
      have hL : u0 = L := by omega
      subst hL
      simp
    | false =>
      have hu : u0 < L := by
        simp [limitReached] at hlim
        omega
      cases hm : it.media_url with
      | none =>
        rw [processItems_cons_nomedia _ _ _ _ _ _ hlim hm]
        have hfe : (it :: rest).filter (eligibleFor netOk) =
            rest.filter (eligibleFor netOk) := by
          simp [List.filter_cons, eligibleFor, hm]
        rw [hfe]
        exact ih u0 h
      | some url =>
        cases hn : netOk url with
        | true =>
          rw [processItems_cons_ok _ _ _ _ _ _ hlim hm hn]
          have hfe : ((it :: rest).filter (eligibleFor netOk)).length =
              1 + (rest.filter (eligibleFor netOk)).length := by
            simp [List.filter_cons, eligibleFor, hm, hn]
            omega
          rw [hfe, ih (u0 + 1) (by omega)]
          omega
        | false =>
          rw [processItems_cons_fail _ _ _ _ _ _ hlim hm hn]
          have hfe : (it :: rest).filter (eligibleFor netOk) =
              rest.filter (eligibleFor netOk) := by
            simp [List.filter_cons, eligibleFor, hm, hn]
          rw [hfe]
          exact ih u0 h

/-- Every processed row relates to its worklist row: untouched, or marked
after a successful transfer of its URL. -/
theorem processItems_rel (netOk : String → Bool) (lim : Option Int) (d : Bool) :
    ∀ (l : List PodcastItem) (u0 : Nat),
      List.Forall₂ (dlRel netOk) l (processItems netOk lim d u0 l).1 := by
  intro l
  induction l with
  | nil =>
    intro u0
    have he : processItems netOk lim d u0 [] = ([], u0) := by
      simp [processItems]
    rw [he]
    exact List.Forall₂.nil
  | cons it rest ih =>
    intro u0
    cases hlim : limitReached lim u0 with
    | true =>
      rw [processItems_cons_limit _ _ _ _ _ _ hlim]
      exact List.forall₂_same.mpr (fun x _ => Or.inl rfl)
    | false =>
      cases hm : it.media_url with
      | none =>
        rw [processItems_cons_nomedia _ _ _ _ _ _ hlim hm]
        exact List.Forall₂.cons (Or.inl rfl) (ih u0)
      | some url =>
        cases d with
        | true =>
          rw [processItems_cons_dry _ _ _ _ _ _ hlim hm]
          exact List.Forall₂.cons (Or.inl rfl) (ih u0)
        | false =>
          cases hn : netOk url with
          | true =>
            rw [processItems_cons_ok _ _ _ _ _ _ hlim hm hn]
            exact List.Forall₂.cons (Or.inr ⟨url, hm, hn, rfl⟩) (ih (u0 + 1))
          | false =>
            rw [processItems_cons_fail _ _ _ _ _ _ hlim hm hn]
            exact List.Forall₂.cons (Or.inl rfl) (ih u0)

/-- Right members of a Forall₂ arise from left members. -/
theorem forall2_exists_left {α β : Type _} {R : α → β → Prop} :
    ∀ {l : List α} {l2 : List β}, List.Forall₂ R l l2 → ∀ q ∈ l2, ∃ o ∈ l, R o q := by
  intro l l2 h
  induction h with
  | nil => intro q hq; cases hq
  | @cons a b l1 l3 hr hrest ih =>
    intro q hq
    rcases List.mem_cons.mp hq with rfl | hm
    · exact ⟨a, List.mem_cons_self _ _, hr⟩
    · rcases ih q hm with ⟨o, ho, hro⟩
      exact ⟨o, List.mem_cons_of_mem _ ho, hro⟩

/-- Processing preserves the primary key of a row. -/
theorem dlRel_id (netOk : String → Bool) {o q : PodcastItem} (h : dlRel netOk o q) :
    q.id = o.id := by
  rcases h with rfl | ⟨u, _, _, rfl⟩
  · rfl
  · rfl

/-- Processing preserves the watched flag of a row. -/
theorem dlRel_watched (netOk : String → Bool) {o q : PodcastItem} (h : dlRel netOk o q) :
    q.watched = o.watched := by
  rcases h with rfl | ⟨u, _, _, rfl⟩
  · rfl
  · rfl

/-- The download worklist only holds rows of the items table. -/
theorem mem_pendingSorted {st : Store} {o : PodcastItem} (h : o ∈ pendingSorted st) :
    o ∈ st.items := by
  unfold pendingSorted at h
  have h2 := (List.perm_insertionSort idDescRel _).mem_iff.mp h
  exact List.mem_of_mem_filter h2

/-- Looking up a row by primary key after the write-back: when every
processed row carrying this key equals the untouched original, the lookup
still returns the original row. -/
theorem applyResult_find_eq (pr : List PodcastItem) (iid : Nat) :
    ∀ (l : List PodcastItem) (it : PodcastItem),
      (l.map (fun r => r.id)).Nodup → it ∈ l → it.id = some iid →
      (∀ q ∈ pr, q.id = some iid → q = it) →
      (applyResult l pr).find? (fun r => r.id == some iid) = some it := by
  intro l
  induction l with
  | nil => intro it _ hmem; cases hmem
  | cons r rest ih =>
    intro it hnd hmem hid hpr
    rw [List.map_cons] at hnd
    have hnd2 := List.nodup_cons.mp hnd
    have happ : applyResult (r :: rest) pr =
        ((pr.find? (fun q => q.id == r.id)).getD r) :: applyResult rest pr := rfl
    rw [happ]
    have hgid : ((pr.find? (fun q => q.id == r.id)).getD r).id = r.id := by
      cases hf : pr.find? (fun q => q.id == r.id) with
      | none => rfl
      | some q =>
        have hq := List.find?_some hf
        have hq2 : q.id = r.id := by simpa using hq
        simpa using hq2
    by_cases hr : r.id = some iid
    · have hit : it = r := by
        rcases List.mem_cons.mp hmem with rfl | htail
        · rfl
        · exfalso
          apply hnd2.1
          rw [hr, ← hid]
          exact List.mem_map_of_mem _ htail
      subst hit
      have hg : (pr.find? (fun q => q.id == it.id)).getD it = it := by
        cases hf : pr.find? (fun q => q.id == it.id) with
        | none => rfl
        | some q =>
          have hq := List.find?_some hf
          have hq2 : q.id = it.id := by simpa using hq
          have hq3 := hpr q (List.mem_of_find?_eq_some hf) (hq2.trans hr)
          simpa using hq3
      rw [hg]
      exact List.find?_cons_of_pos _ (by simp [hr])
    · have hpred : (((pr.find? (fun q => q.id == r.id)).getD r).id == some iid) = false := by
        rw [hgid]
        exact beq_eq_false_iff_ne.mpr hr
      rw [List.find?_cons_of_neg _ (by simp [hpred])]
      have htail : it ∈ rest := by
        rcases List.mem_cons.mp hmem with rfl | htail
        · exact absurd hid hr
        · exact htail
      exact ih it hnd2.2 htail hid hpr

/-- C6: a failed media download leaves the episode's row entirely unchanged
(downloaded stays 0, filename stays unset) and retrievable by id, the loop
continues past it, and the run's count equals the limit-capped number of
episodes whose transfer succeeds — failed attempts consume no budget. -/
theorem c6_download_failure_isolation :
    ∀ (st : Store) (netOk : String → Bool) (L : Nat),
      (st.items.map (fun it => it.id)).Nodup →
      (∀ it u iid, it ∈ st.items → it.id = some iid → it.media_url = some u →
        netOk u = false →
        get_item (runDownloadPhase netOk (some (L : Int)) false st).1 iid = some it) ∧
      (runDownloadPhase netOk (some (L : Int)) false st).2 =
        min L ((pendingSorted st).filter (eligibleFor netOk)).length := by
  intro st netOk L hnd
  constructor
  · intro it u iid hmem hid hm hn
    have hrel := processItems_rel netOk (some (L : Int)) false (pendingSorted st) 0
    have hpr : ∀ q ∈ (processItems netOk (some (L : Int)) false 0 (pendingSorted st)).1,
        q.id = some iid → q = it := by
      intro q hq hqid
      rcases forall2_exists_left hrel q hq with ⟨o, ho, hrelo⟩
      have hoid : o.id = q.id := (dlRel_id netOk hrelo).symm
      have homem : o ∈ st.items := mem_pendingSorted ho
      have hoeq : o = it := by
        apply List.inj_on_of_nodup_map hnd homem hmem
        rw [hoid, hqid, hid]
      subst hoeq
      rcases hrelo with rfl | ⟨u2, hm2, hn2, rfl⟩
      · rfl
      · exfalso
        rw [hm] at hm2
        injection hm2 with hu
        rw [hu] at hn
        rw [hn] at hn2
        cases hn2
    show (applyResult st.items
        (processItems netOk (some (L : Int)) false 0 (pendingSorted st)).1).find?
        (fun r => r.id == some iid) = some it
    exact applyResult_find_eq _ iid st.items it hnd hmem hid hpr
  · show (processItems netOk (some (L : Int)) false 0 (pendingSorted st)).2 = _
    rw [processItems_count netOk L (pendingSorted st) 0 (Nat.zero_le L)]
    rw [Nat.zero_add]

/-- C6 witness: with a limit of 1 over two pending episodes where the first
worklist entry fails and the second succeeds, the failed row is unchanged
and the run still reports 1 success. -/
theorem c6_download_failure_isolation_witness :
    get_item (runDownloadPhase w6Net (some 1) false w6Store).1 2 = some w6Fail ∧
      (runDownloadPhase w6Net (some 1) false w6Store).2 = 1 :=
  ⟨(c6_download_failure_isolation w6Store w6Net 1 (by decide)).1 w6Fail
      "http://h/bad.mp3" 2 (by decide) rfl rfl (by decide),
    ((c6_download_failure_isolation w6Store w6Net 1 (by decide)).2).trans (by decide)⟩

/-! C4: suspension and the sync run. -/

/-- Pointwise-equal functions map lists equally. -/
theorem map_congr_mem {α β : Type _} {f g : α → β} :
    ∀ (l : List α), (∀ a ∈ l, f a = g a) → l.map f = l.map g := by
  intro l
  induction l with
  | nil => intro _; rfl
  | cons c cs ih =>
    intro h
    simp only [List.map_cons]
    rw [h c (List.mem_cons_self c cs), ih (fun a ha => h a (List.mem_cons_of_mem c ha))]

/-- Empty podcast loop. -/
theorem updateRssGo_nil (tz : Int) (feeds : String → List Entry) (st : Store)
    (last : Option PodcastItem) : updateRssGo tz feeds [] st last = .ok st := rfl

/-- One-step unfolding of the podcast loop. -/
theorem updateRssGo_cons (tz : Int) (feeds : String → List Entry) (p : Podcast)
    (ps : List Podcast) (st : Store) (last : Option PodcastItem) :
    updateRssGo tz feeds (p :: ps) st last =
      (match p.rss_url with
        | none => updateRssGo tz feeds ps st last
        | some url =>
          if !(strStartsWith url "http") then .error ()
          else
            match lastBuiltItem tz p st last (feeds url) with
            | none => .error ()
            | some item =>
              updateRssGo tz feeds ps (add_podcast_item_if_not_exists st item).1
                (some item)) := rfl

/-- Loop step for a podcast without a feed URL (filtered out upstream). -/
theorem updateRssGo_cons_nourl (tz : Int) (feeds : String → List Entry) (p : Podcast)
    (ps : List Podcast) (st : Store) (last : Option PodcastItem)
    (h : p.rss_url = none) :
    updateRssGo tz feeds (p :: ps) st last = updateRssGo tz feeds ps st last := by
  rw [updateRssGo_cons, h]

/-- Loop step for a feed with a URL: the http check gates the body. -/
theorem updateRssGo_cons_url (tz : Int) (feeds : String → List Entry) (p : Podcast)
    (ps : List Podcast) (st : Store) (last : Option PodcastItem) (url : String)
    (h : p.rss_url = some url) :
    updateRssGo tz feeds (p :: ps) st last =
      (if !(strStartsWith url "http") then .error ()
       else
        match lastBuiltItem tz p st last (feeds url) with
        | none => .error ()
        | some item =>
          updateRssGo tz feeds ps (add_podcast_item_if_not_exists st item).1
            (some item)) := by
  rw [updateRssGo_cons, h]

/-- Loop step for a non-http feed location: the unimported os module raises
and the whole pass dies. -/
theorem updateRssGo_cons_nonhttp (tz : Int) (feeds : String → List Entry) (p : Podcast)
    (ps : List Podcast) (st : Store) (last : Option PodcastItem) (url : String)
    (h : p.rss_url = some url) (hs : strStartsWith url "http" = false) :
    updateRssGo tz feeds (p :: ps) st last = .error () := by
  rw [updateRssGo_cons_url tz feeds p ps st last url h, hs]
  rfl

/-- Loop step for an http feed: the entry loop rebinds item and the single
dedup insert after it runs on the last built item. -/
theorem updateRssGo_cons_http (tz : Int) (feeds : String → List Entry) (p : Podcast)
    (ps : List Podcast) (st : Store) (last : Option PodcastItem) (url : String)
    (h : p.rss_url = some url) (hs : strStartsWith url "http" = true) :
    updateRssGo tz feeds (p :: ps) st last =
      (match lastBuiltItem tz p st last (feeds url) with
        | none => .error ()
        | some item =>
          updateRssGo tz feeds ps (add_podcast_item_if_not_exists st item).1 (some item)) := by
  rw [updateRssGo_cons_url tz feeds p ps st last url h, hs]
  rfl

/-- The podcast loop only consults the feeds of the podcasts it was given:
two feed oracles agreeing on those urls yield identical results. -/
theorem updateRssGo_feeds_congr (tz : Int) (feeds feeds2 : String → List Entry) :
    ∀ (ps : List Podcast) (st : Store) (last : Option PodcastItem),
      (∀ p ∈ ps, ∀ u, p.rss_url = some u → feeds u = feeds2 u) →
      updateRssGo tz feeds ps st last = updateRssGo tz feeds2 ps st last := by
  intro ps
  induction ps with
  | nil => intro st last _; rfl
  | cons p ps ih =>
    intro st last hf
    cases hru : p.rss_url with
    | none =>
      rw [updateRssGo_cons_nourl tz feeds p ps st last hru,
        updateRssGo_cons_nourl tz feeds2 p ps st last hru]
      exact ih st last (fun q hq u hu => hf q (List.mem_cons_of_mem _ hq) u hu)
    | some url =>
      have hfeq : feeds url = feeds2 url := hf p (List.mem_cons_self _ _) url hru
      cases hsw : strStartsWith url "http" with
      | false =>
        rw [updateRssGo_cons_nonhttp tz feeds p ps st last url hru hsw,
          updateRssGo_cons_nonhttp tz feeds2 p ps st last url hru hsw]
      | true =>
        rw [updateRssGo_cons_http tz feeds p ps st last url hru hsw,
          updateRssGo_cons_http tz feeds2 p ps st last url hru hsw, hfeq]
        cases lastBuiltItem tz p st last (feeds2 url) with
        | none => rfl
        | some item =>
          exact ih _ _ (fun q hq u hu => hf q (List.mem_cons_of_mem _ hq) u hu)

/-- The dedup insert preserves the podcasts table, only appends items, and
preserves well-formed id assignment. -/
theorem add_item_growth (st : Store) (x : PodcastItem) :
    (add_podcast_item_if_not_exists st x).1.podcasts = st.podcasts ∧
    (∃ tail, (add_podcast_item_if_not_exists st x).1.items = st.items ++ tail) ∧
    (wfItemIds st → wfItemIds (add_podcast_item_if_not_exists st x).1) := by
  unfold add_podcast_item_if_not_exists
  split
  · exact ⟨rfl, ⟨[], by simp⟩, fun h => h⟩
  · refine ⟨rfl, ⟨[{ x with id := some st.nextItemId }], rfl⟩, ?_⟩
    rintro ⟨hnd, hb⟩
    constructor
    · rw [List.map_append]
      apply List.Nodup.append hnd (List.nodup_singleton _)
      intro a ha hb2
      simp only [List.map_cons, List.map_nil, List.mem_singleton] at hb2
      subst hb2
      rcases List.mem_map.mp ha with ⟨it, hitmem, hiteq⟩
      have hthis := hb it hitmem
      unfold idBelow at hthis
      rw [hiteq] at hthis
      simp at hthis
    · intro it hmem
      rcases List.mem_append.mp hmem with hold | hnew
      · have hthis := hb it hold
        unfold idBelow at hthis ⊢
        cases hi : it.id with
        | none => rfl
        | some v =>
          rw [hi] at hthis
          simp at hthis ⊢
          omega
      · simp only [List.mem_singleton] at hnew
        subst hnew
        unfold idBelow
        simp

/-- One pass of the podcast loop preserves the podcasts table, only appends
episode rows, and preserves well-formed id assignment. -/
theorem updateRssGo_growth (tz : Int) (feeds : String → List Entry) :
    ∀ (ps : List Podcast) (st : Store) (last : Option PodcastItem) (st2 : Store),
      updateRssGo tz feeds ps st last = .ok st2 →
      st2.podcasts = st.podcasts ∧ (∃ tail, st2.items = st.items ++ tail) ∧
      (wfItemIds st → wfItemIds st2) := by
  intro ps
  induction ps with
  | nil =>
    intro st last st2 h
    have h2 : st = st2 := by
      have h3 : (Except.ok st : Except Unit Store) = .ok st2 := h
      injection h3
    subst h2
    exact ⟨rfl, ⟨[], by simp⟩, fun hh => hh⟩
  | cons p ps ih =>
    intro st last st2 h
    cases hru : p.rss_url with
    | none =>
      rw [updateRssGo_cons_nourl tz feeds p ps st last hru] at h
      exact ih st last st2 h
    | some url =>
      cases hsw : strStartsWith url "http" with
      | false =>
        rw [updateRssGo_cons_nonhttp tz feeds p ps st last url hru hsw] at h
        cases h
      | true =>
        rw [updateRssGo_cons_http tz feeds p ps st last url hru hsw] at h
        cases hlb : lastBuiltItem tz p st last (feeds url) with
        | none =>
          rw [hlb] at h
          cases h
        | some item =>
          rw [hlb] at h
          have h2 : updateRssGo tz feeds ps
              (add_podcast_item_if_not_exists st item).1 (some item) = .ok st2 := h
          have hadd := add_item_growth st item
          rcases ih _ _ _ h2 with ⟨hp2, ⟨t2, ht2⟩, hw2⟩
          rcases hadd.2.1 with ⟨t1, ht1⟩
          refine ⟨hp2.trans hadd.1, ⟨t1 ++ t2, ?_⟩, fun hwf => hw2 (hadd.2.2 hwf)⟩
          rw [ht2, ht1, List.append_assoc]

/-- The download phase keeps the podcasts table and, on a table with distinct
primary keys, the watched flag of every row. -/
theorem runDownloadPhase_watched (netOk : String → Bool) (lim : Option Int) (d : Bool)
    (st1 : Store) (hnd : (st1.items.map (fun it => it.id)).Nodup) :
    (runDownloadPhase netOk lim d st1).1.podcasts = st1.podcasts ∧
    (runDownloadPhase netOk lim d st1).1.items.map (fun it => it.watched) =
      st1.items.map (fun it => it.watched) := by
  refine ⟨rfl, ?_⟩
  show (applyResult st1.items (processItems netOk lim d 0 (pendingSorted st1)).1).map
      (fun it => it.watched) = st1.items.map (fun it => it.watched)
  unfold applyResult
  rw [List.map_map]
  apply map_congr_mem
  intro row hrow
  show ((((processItems netOk lim d 0 (pendingSorted st1)).1).find?
      (fun q => q.id == row.id)).getD row).watched = row.watched
  cases hf : ((processItems netOk lim d 0 (pendingSorted st1)).1).find?
      (fun q => q.id == row.id) with
  | none => rfl
  | some q =>
    have hqp := List.find?_some hf
    have hqid : q.id = row.id := by simpa using hqp
    have hqmem := List.mem_of_find?_eq_some hf
    rcases forall2_exists_left (processItems_rel netOk lim d (pendingSorted st1) 0)
        q hqmem with ⟨o, ho, hrelo⟩
    have hw : q.watched = o.watched := dlRel_watched netOk hrelo
    have hoid : o.id = q.id := (dlRel_id netOk hrelo).symm
    have homem : o ∈ st1.items := mem_pendingSorted ho
    have hor : o = row :=
      List.inj_on_of_nodup_map hnd homem hrow (by rw [hoid, hqid])
    simp [hw, hor]

/-- C4 counterexample: one run over a store whose only podcast is suspended
downloads that podcast's pending episode anyway — the download query has no
suspension filter — flipping downloaded to 1 and setting the filename,
contrary to the claim. -/
theorem c4_suspended_counterexample :
    (runSchedule 0 (fun _ => []) (fun _ => true) none false c4Store).toOption.map
      (fun r => (r.1.items.map (fun it => (it.downloaded, it.filename)), r.2)) =
      some ([(some 1, some "pod1-trk86400000-t.mp3")], 1) := by
  decide

/-- C4 (amended): a Sync Driver run never consults the feed of a suspended
podcast (only podcasts with suspended=0 and a feed URL are fetched), keeps
the podcasts table unchanged, and leaves the watched flag of every
pre-existing episode unchanged; the download phase however ignores
suspension, so pending episodes of suspended podcasts are still downloaded
(their downloaded flag and filename do change, see the counterexample). -/
theorem c4_suspended_refresh_and_watched :
    ∀ (tz : Int) (feeds feeds2 : String → List Entry) (netOk : String → Bool)
      (limit : Option Int) (dryRun : Bool) (st : Store),
      wfItemIds st →
      (∀ p ∈ st.podcasts, p.suspended = some 0 → ∀ u, p.rss_url = some u →
        feeds u = feeds2 u) →
      update_rss_items tz feeds st = update_rss_items tz feeds2 st ∧
      (∀ st2 n, runSchedule tz feeds netOk limit dryRun st = .ok (st2, n) →
        st2.podcasts = st.podcasts ∧
        ∃ extra, st2.items.map (fun it => it.watched) =
          st.items.map (fun it => it.watched) ++ extra) := by
  intro tz feeds feeds2 netOk limit dryRun st hwf hf
  constructor
  · unfold update_rss_items
    apply updateRssGo_feeds_congr
    intro p hp u hu
    have hp2 := List.mem_filter.mp hp
    have hsusp : p.suspended = some 0 := by
      have hq := hp2.2
      simp at hq
      exact hq.2
    exact hf p hp2.1 hsusp u hu
  · intro st2 n hrun
    unfold runSchedule at hrun
    cases hup : update_rss_items tz feeds st with
    | error e =>
      rw [hup] at hrun
      cases hrun
    | ok st1 =>
      rw [hup] at hrun
      have hpair : runDownloadPhase netOk limit dryRun st1 = (st2, n) := by
        injection hrun
      have hgrow := updateRssGo_growth tz feeds
        (st.podcasts.filter (fun p => p.rss_url.isSome && p.suspended == some 0))
        st none st1 hup
      have hwf1 := hgrow.2.2 hwf
      have hph := runDownloadPhase_watched netOk limit dryRun st1 hwf1.1
      have hst2 : st2 = (runDownloadPhase netOk limit dryRun st1).1 := by
        rw [hpair]
      constructor
      · rw [hst2, hph.1, hgrow.1]
      · obtain ⟨tail, htail⟩ := hgrow.2.1
        refine ⟨tail.map (fun it => it.watched), ?_⟩
        rw [hst2, hph.2, htail, List.map_append]

/-- C4 witness: the run on the suspended-podcast store keeps the podcasts
table (while the counterexample shows its episode was downloaded). -/
theorem c4_suspended_refresh_and_watched_witness :
    c4After.podcasts = c4Store.podcasts :=
  ((c4_suspended_refresh_and_watched 0 (fun _ => []) (fun _ => [])
      (fun _ => true) none false c4Store ⟨by decide, by decide⟩
      (fun p hp h0 u hu => rfl)).2 c4After 1 rfl).1
